import Mathlib

/-!
Verification of the solpulsen knowledge-engine core pipeline.

Shallow embedding of the document chunking pipeline
(`knowledge_engine/services/ingestion.py`), the retrieval ranking and
gating pipeline (`knowledge_engine/services/query.py`), and the frozen
configuration constants (`knowledge_engine/core/config.py`).

Modelling conventions:
- The tokenizer (tiktoken) is an external collaborator; it is modelled as an
  arbitrary function `tok : String → Nat`, exactly as the spec treats
  `count_tokens` as an opaque deterministic collaborator.
- Python floats carrying retrieval scores are modelled as rationals `ℚ`;
  the pipeline only sums, averages and compares scores, so `ℚ` is the exact
  idealisation of that arithmetic.
- Dictionary accesses `c.get("score", 0)` are modelled with `Option` fields
  and an explicit default.
- Database / network effects are modelled by explicit state passing
  (the embeddings cache is a list of rows threaded through the functions)
  and fallible operations return `Except`.
-/

/-! ## Configuration constants (core/config.py, frozen architecture) -/

def CHUNK_TARGET_TOKENS : Nat := 1000

def CHUNK_OVERLAP_TOKENS : Nat := 125

def CHUNK_MAX_TOKENS : Nat := 1200

def RETRIEVAL_TOP_K : Nat := 6

/-- Constant `RERANK_FINAL_K = RETRIEVAL_TOP_K` (services/query.py line 38). -/
def RERANK_FINAL_K : Nat := RETRIEVAL_TOP_K

def WEAK_MATCH_SCORE_THRESHOLD : ℚ := 1/2

/-- Fixed sentinel answer (services/query.py line 40). -/
def NO_ANSWER : String := "ospecificerat i underlaget"

/-! ## Chunking (services/ingestion.py, `_split_into_chunks`)

A sentence together with the page it came from, i.e. one element of the
`sentences : list[tuple[str, int]]` list the Python code builds before the
main chunking loop.  The claims quantify over arbitrary sentence sequences,
so the regex sentence splitter itself is upstream of the embedded code. -/

structure Sent where
  text : String
  page : Nat
deriving DecidableEq

structure Chunk where
  chunk_index : Nat
  content : String
  content_tokens : Nat
  page_start : Nat
  page_end : Nat
deriving DecidableEq

/-- Sum of token counts of a sentence list. -/
def sumTok (tok : String → Nat) (l : List Sent) : Nat :=
  (l.map (fun s => tok s.text)).sum

/-- Embeds `" ".join(s for s, _ in current_sentences)`. -/
def renderSents (l : List Sent) : String :=
  String.intercalate " " (l.map Sent.text)

/-- Embeds `min(pages)` over a nonempty list (the code only evaluates it on
nonempty accumulators; the `[]` case is unreachable junk). -/
def listMin : List Nat → Nat
  | [] => 0
  | p :: ps => ps.foldl min p

def listMax : List Nat → Nat
  | [] => 0
  | p :: ps => ps.foldl max p

/-- Record a closed accumulator as a chunk (ingestion.py lines 102-110 /
129-137). -/
def mkChunk (idx : Nat) (current : List Sent) (tokens : Nat) : Chunk :=
  { chunk_index := idx
    content := renderSents current
    content_tokens := tokens
    page_start := listMin (current.map Sent.page)
    page_end := listMax (current.map Sent.page) }

/-- Tail loop of the overlap computation (ingestion.py lines 113-121):
walk the closed accumulator backwards (`rl` is the reversed accumulator),
prepending sentences while the running overlap stays within
`CHUNK_OVERLAP_TOKENS`, stopping at the first sentence that would
overflow. -/
def takeOverlapGo (tok : String → Nat) : List Sent → List Sent → Nat → List Sent × Nat
  | [], acc, t => (acc, t)
  | s :: rest, acc, t =>
    if t + tok s.text ≤ CHUNK_OVERLAP_TOKENS then
      takeOverlapGo tok rest (s :: acc) (t + tok s.text)
    else
      (acc, t)

/-- Overlap carry-over: the sentences (in original order) seeding the next
accumulator, together with their summed token count
(`overlap_sentences, overlap_tokens` in ingestion.py). -/
def takeOverlap (tok : String → Nat) (current : List Sent) : List Sent × Nat :=
  takeOverlapGo tok current.reverse [] 0

/-- Loop state of `_split_into_chunks`: emitted chunks, current accumulator,
its running token count, and the next chunk index. -/
structure BState where
  chunks : List Chunk
  current : List Sent
  currentTokens : Nat
  chunkIndex : Nat
deriving DecidableEq

/-- One iteration of the `for sent, page_num in sentences` loop
(ingestion.py lines 98-126). -/
def stepSentence (tok : String → Nat) (st : BState) (s : Sent) : BState :=
  let sentTokens := tok s.text
  if CHUNK_MAX_TOKENS < st.currentTokens + sentTokens ∧ st.current ≠ [] then
    let closed := mkChunk st.chunkIndex st.current st.currentTokens
    let ov := takeOverlap tok st.current
    { chunks := st.chunks ++ [closed]
      current := ov.1 ++ [s]
      currentTokens := ov.2 + sentTokens
      chunkIndex := st.chunkIndex + 1 }
  else
    { st with
      current := st.current ++ [s]
      currentTokens := st.currentTokens + sentTokens }

/-- Embeds `_split_into_chunks` (ingestion.py lines 93-139), starting from the
already-built sentence list: fold the per-sentence step, then flush the
final accumulator if nonempty. -/
def split_into_chunks (tok : String → Nat) (sents : List Sent) : List Chunk :=
  let st := sents.foldl (stepSentence tok) ⟨[], [], 0, 0⟩
  if st.current.isEmpty then st.chunks
  else st.chunks ++ [mkChunk st.chunkIndex st.current st.currentTokens]

/-! Sentence-level view of the same loop: identical control flow, but each
emitted chunk is recorded as its list of sentences instead of the rendered
record.  A proved correspondence theorem links it to `split_into_chunks`;
it exists only so that coverage properties can speak about sentences. -/

structure GState where
  groups : List (List Sent)
  current : List Sent
  currentTokens : Nat
deriving DecidableEq

def stepGroup (tok : String → Nat) (st : GState) (s : Sent) : GState :=
  let sentTokens := tok s.text
  if CHUNK_MAX_TOKENS < st.currentTokens + sentTokens ∧ st.current ≠ [] then
    let ov := takeOverlap tok st.current
    { groups := st.groups ++ [st.current]
      current := ov.1 ++ [s]
      currentTokens := ov.2 + sentTokens }
  else
    { st with
      current := st.current ++ [s]
      currentTokens := st.currentTokens + sentTokens }

def split_into_groups (tok : String → Nat) (sents : List Sent) : List (List Sent) :=
  let st := sents.foldl (stepGroup tok) ⟨[], [], 0⟩
  if st.current.isEmpty then st.groups
  else st.groups ++ [st.current]

/-! ## Retrieval candidates (services/query.py)

A candidate row as returned by the retrieval RPCs.  Fields the code reads
with `.get(key, default)` or `.get(key)` are `Option`s; `sect` models the
Python `section` key (`section` is a Lean keyword). -/

structure Cand where
  chunk_id : String
  document_id : String
  document_title : String
  document_version : Option String
  content : String
  score : Option ℚ
  page_start : Option Nat
  page_end : Option Nat
  sect : Option String
deriving DecidableEq

/-- Embeds `c.get("score", 0)`. -/
def scoreD (c : Cand) : ℚ := c.score.getD 0

/-- Embeds `_rerank` (query.py lines 150-157): stable sort by score descending,
then truncate to `RERANK_FINAL_K`.  The Python builtin `sorted(..., key=score,
reverse=True)` is a stable sort in which equal-score elements keep their
input order; `List.mergeSort` with the comparator
`a ≤ b ↔ score b ≤ score a` computes the same list. -/
def rerank (candidates : List Cand) : List Cand :=
  (candidates.mergeSort (fun a b => decide (scoreD b ≤ scoreD a))).take RERANK_FINAL_K

/-- Embeds `max(c.get("score", 0) for c in reranked)` — only evaluated on nonempty
lists by the code; the `[]` case is unreachable junk. -/
def maxScore : List Cand → ℚ
  | [] => 0
  | c :: cs => cs.foldl (fun m d => max m (scoreD d)) (scoreD c)

/-- Embeds `_is_weak_match` (query.py lines 162-182).  Here `provider` is the
process-wide `EMBEDDING_PROVIDER` configuration value. -/
def is_weak_match (provider : String) (reranked : List Cand) (confidence : String) : Bool :=
  if confidence = "low" then true
  else if reranked.isEmpty then true
  else if provider = "openai" then
    if maxScore reranked < WEAK_MATCH_SCORE_THRESHOLD then true else false
  else false

/-- Embeds `avg_score = sum(c.get("score", 0) for c in chunks) / len(chunks)`
(query.py line 213). -/
def avgScore (chunks : List Cand) : ℚ :=
  (chunks.map scoreD).sum / chunks.length

/-- Embeds `_determine_confidence` (query.py lines 205-226). -/
def determine_confidence (provider : String) (chunks : List Cand) : String :=
  if chunks.isEmpty then "low"
  else
    if provider = "fulltext" then
      if (1/10 : ℚ) ≤ avgScore chunks then "high"
      else if (1/100 : ℚ) ≤ avgScore chunks then "medium"
      else "low"
    else
      if (3/4 : ℚ) ≤ avgScore chunks then "high"
      else if (1/2 : ℚ) ≤ avgScore chunks then "medium"
      else "low"

/-! ## Context assembly (services/query.py, `_build_context`) -/

/-- The page-reference fragment of one context block (query.py lines
191-195).  Python truthiness: `if chunk.get("page_start"):` is false both
for a missing key and for page `0`. -/
def pageInfo (c : Cand) : String :=
  match c.page_start with
  | none => ""
  | some ps =>
    if ps = 0 then ""
    else
      let base := ", sida " ++ toString ps
      match c.page_end with
      | none => base
      | some pe => if pe ≠ 0 ∧ pe ≠ ps then base ++ "-" ++ toString pe else base

/-- One block of the context string (query.py lines 196-201), labelled with
the 1-based index `i`. -/
def contextBlock (i : Nat) (c : Cand) : String :=
  "[" ++ toString i ++ "] " ++ c.document_title ++
  " (v" ++ c.document_version.getD "?" ++ pageInfo c ++ ")\n" ++
  "Chunk ID: " ++ c.chunk_id ++ "\n" ++
  c.content

/-- Embeds `_build_context` (query.py lines 187-202). -/
def build_context (chunks : List Cand) : String :=
  String.intercalate "\n\n---\n\n"
    (chunks.enum.map (fun p => contextBlock (p.1 + 1) p.2))

/-! ## Query pipeline (services/query.py, `process_query`) -/

structure CitationItem where
  chunk_id : String
  document_id : String
  document_title : String
  document_version : Option String
  page_start : Option Nat
  page_end : Option Nat
  sect : Option String
  content_preview : String
deriving DecidableEq

structure RetrievedChunk where
  chunk_id : String
  document_id : String
  document_title : String
  content : String
  score : ℚ
  rank : Nat
  page_start : Option Nat
  page_end : Option Nat
  sect : Option String
deriving DecidableEq

/-- The caller-visible part of `QueryResponse` the claims are about
(`query_id` and `latency_ms` are request-scoped noise). -/
structure QueryResponse where
  answer : String
  citations : List CitationItem
  retrieved_chunks : List RetrievedChunk
  confidence : String
deriving DecidableEq

/-- Embeds `MODE_INSTRUCTIONS.get(mode, MODE_INSTRUCTIONS["technical"])`
(query.py lines 44-57 and 321). -/
def modeInstruction (mode : String) : String :=
  if mode = "technical" then
    "Du är en teknisk expert på energisystem. Svara med tekniska termer, mätvärden, integrationskrav, risker, cybersäkerhet och regelverk. Var precis och detaljerad."
  else if mode = "sales" then
    "Du är en säljrådgivare. Förklara kundvärde i enkel svenska. Lyft fördelar, riskkontroll och varför Solpulsen är det bästa valet. Håll det kortfattat och övertygande."
  else if mode = "investor" then
    "Du är en affärsanalytiker. Fokusera på marknadspotential, competitive moat, skalbarhet, compliance, riskprofil och intäktsspår. Var strukturerad och faktabaserad."
  else
    "Du är en teknisk expert på energisystem. Svara med tekniska termer, mätvärden, integrationskrav, risker, cybersäkerhet och regelverk. Var precis och detaljerad."

/-- Embeds `SYSTEM_PROMPT_TEMPLATE.format(mode_instruction=..., context=...)`
(query.py lines 59-74): the template is a constant, so `.format` is
concatenation of its three fixed pieces around the two insertions. -/
def systemPrompt (mi ctx : String) : String :=
  "Du är Pulsen A.I. Knowledge Engine, ett internt kunskapssystem för Solpulsen.\n\n" ++
  mi ++
  "\n\nREGLER SOM ALDRIG FÅR BRYTAS:\n1. Svara ENDAST baserat på den kontext som tillhandahålls nedan.\n2. Om informationen saknas i kontexten, skriv exakt: \"ospecificerat i underlaget\"\n3. Inga gissningar, inga antaganden, ingen information utanför kontexten.\n4. Skriv alltid på svenska.\n5. Ingen fluff. Var koncis och faktabaserad.\n6. Avsluta alltid svaret med en källförteckning i formatet:\n   KÄLLOR:\n   - [Dokumenttitel, version, sida X-Y, Chunk ID: <id>]\n\nKONTEXT:\n" ++
  ctx

def mkCitation (c : Cand) : CitationItem :=
  { chunk_id := c.chunk_id
    document_id := c.document_id
    document_title := c.document_title
    document_version := c.document_version
    page_start := c.page_start
    page_end := c.page_end
    sect := c.sect
    content_preview := c.content.take 300 }

def mkRetrieved (rank : Nat) (c : Cand) : RetrievedChunk :=
  { chunk_id := c.chunk_id
    document_id := c.document_id
    document_title := c.document_title
    content := c.content
    score := scoreD c
    rank := rank
    page_start := c.page_start
    page_end := c.page_end
    sect := c.sect }

/-- Embeds `process_query` (query.py lines 282-383) from the point where the
retrieval collaborator has produced `candidates`.  `gen` is the
`chat_completion` collaborator; in the ungroundable branch the code never
calls it and never builds a context, which in this pure embedding shows up
as the result not depending on `gen` at all. -/
def process_query (provider : String) (gen : String → String → String)
    (question mode : String) (candidates : List Cand) : QueryResponse :=
  let reranked := rerank candidates
  let confidence := determine_confidence provider reranked
  if reranked.isEmpty || is_weak_match provider reranked confidence then
    { answer := NO_ANSWER, citations := [], retrieved_chunks := [], confidence := confidence }
  else
    let context := build_context reranked
    let sys := systemPrompt (modeInstruction mode) context
    let answer := gen sys question
    { answer := answer
      citations := reranked.map mkCitation
      retrieved_chunks := reranked.enum.map (fun p => mkRetrieved (p.1 + 1) p.2)
      confidence := confidence }

/-! ## Embedding cache (services/ingestion.py, `_get_or_create_embedding`)
and the per-chunk ingestion loop of `ingest_document`. -/

/-- One row of the `embeddings_cache` table. -/
structure CacheRow where
  content_hash : String
  embedding : List ℚ
  tokens : Nat
  model_version : String
deriving DecidableEq

/-- The collaborators and configuration `_get_or_create_embedding` reads:
the `EMBEDDING_PROVIDER` switch, the embedding collaborator, the tokenizer,
the model name of the embedder, and whether the cache-insert collaborator call
succeeds (`insertOk = false` models `insert(...).execute()` raising). -/
structure EmbedEnv where
  provider : String
  embed : String → List ℚ
  tokCount : String → Nat
  modelName : String
  insertOk : Bool

/-- Cache lookup by content hash: the code takes `result.data[0]`, i.e. the
first matching row. -/
def cacheLookup (cache : List CacheRow) (hash : String) : Option CacheRow :=
  cache.find? (fun r => r.content_hash == hash)

/-- Result of one `_get_or_create_embedding` call: the returned optional
vector, the cache contents afterwards, and how many embedding requests the
call issued. -/
structure EmbedOut where
  result : Option (List ℚ)
  cache : List CacheRow
  embedCalls : Nat
deriving DecidableEq

/-- Embeds `_get_or_create_embedding` (ingestion.py lines 144-175).  The cache
insert has no `try`/`except` in the source, so a failing insert raises out
of the function: modelled by `Except.error`. -/
def get_or_create_embedding (env : EmbedEnv) (cache : List CacheRow)
    (content hash : String) : Except String EmbedOut :=
  if env.provider ≠ "openai" then
    .ok ⟨none, cache, 0⟩
  else
    match cacheLookup cache hash with
    | some row => .ok ⟨some row.embedding, cache, 0⟩
    | none =>
      let v := env.embed content
      let t := env.tokCount content
      if env.insertOk then
        .ok ⟨some v, cache ++ [⟨hash, v, t, env.modelName⟩], 1⟩
      else
        .error "embeddings_cache insert failed"

/-- One row of the `knowledge_chunks` batch insert built by
`ingest_document` (ingestion.py lines 209-221). -/
structure ChunkRow where
  document_id : String
  chunk_index : Nat
  content : String
  content_hash : String
  content_tokens : Nat
  page_start : Nat
  page_end : Nat
  embedding : Option (List ℚ)
deriving DecidableEq

/-- The per-chunk loop of `ingest_document` (ingestion.py lines 202-221):
hash the content of each chunk, call `_get_or_create_embedding`, and collect the
rows for the single batched insert at the end.  An exception anywhere in
the loop aborts ingestion before any row is stored. -/
def ingest_document_rows (env : EmbedEnv) (hashFn : String → String)
    (docId : String) : List Chunk → List CacheRow → Except String (List ChunkRow × List CacheRow)
  | [], cache => .ok ([], cache)
  | c :: rest, cache =>
    match get_or_create_embedding env cache c.content (hashFn c.content) with
    | .error e => .error e
    | .ok out =>
      match ingest_document_rows env hashFn docId rest out.cache with
      | .error e => .error e
      | .ok (rows, cacheFinal) =>
        .ok ({ document_id := docId
               chunk_index := c.chunk_index
               content := c.content
               content_hash := hashFn c.content
               content_tokens := c.content_tokens
               page_start := c.page_start
               page_end := c.page_end
               embedding := out.result } :: rows, cacheFinal)

/-! ## Concrete test data for witnesses and counterexamples -/

/-- A concrete tokenizer: 50 tokens per character. -/
def cexTok : String → Nat := fun s => s.length * 50

/-- Two sentences of 100 and 1150 tokens under `cexTok`. -/
def cexSents : List Sent := [⟨"ab", 1⟩, ⟨"aaaaaaaaaaaaaaaaaaaaaaa", 1⟩]

/-- A semantic-mode environment whose cache-insert collaborator fails. -/
def failEnv : EmbedEnv :=
  { provider := "openai"
    embed := fun _ => [1]
    tokCount := fun s => s.length
    modelName := "text-embedding-3-small"
    insertOk := false }

/-- A semantic-mode environment whose collaborators all succeed. -/
def okEnv : EmbedEnv :=
  { provider := "openai"
    embed := fun _ => [1]
    tokCount := fun s => s.length
    modelName := "text-embedding-3-small"
    insertOk := true }

def cexChunk : Chunk :=
  { chunk_index := 0, content := "hej", content_tokens := 3, page_start := 1, page_end := 1 }

def cexChunk2 : Chunk :=
  { chunk_index := 1, content := "hopp", content_tokens := 4, page_start := 1, page_end := 1 }

/-- A concrete candidate with the given id and score. -/
def wCand (id : String) (sc : ℚ) : Cand :=
  { chunk_id := id, document_id := "doc", document_title := "Titel"
    document_version := some "1.0", content := "innehåll", score := some sc
    page_start := some 1, page_end := some 1, sect := none }

def wHigh : List Cand := [wCand "a" (9/10), wCand "b" (8/10), wCand "c" (7/10)]

def wPage33 : Cand :=
  { chunk_id := "id1", document_id := "doc", document_title := "Titel"
    document_version := some "1.0", content := "x", score := some 1
    page_start := some 3, page_end := some 3, sect := none }

def wPage35 : Cand :=
  { chunk_id := "id2", document_id := "doc", document_title := "Titel"
    document_version := some "1.0", content := "x", score := some 1
    page_start := some 3, page_end := some 5, sect := none }

/-! # Theorems

## Chunk builder: overlap carry-over -/

lemma takeOverlapGo_le (tok : String → Nat) :
    ∀ (rl acc : List Sent) (t : Nat), t ≤ CHUNK_OVERLAP_TOKENS →
      (takeOverlapGo tok rl acc t).2 ≤ CHUNK_OVERLAP_TOKENS
  | [], _, _, ht => ht
  | s :: rest, acc, t, ht => by
    unfold takeOverlapGo
    split_ifs with h
    · exact takeOverlapGo_le tok rest (s :: acc) (t + tok s.text) h
    · exact ht

lemma takeOverlap_le (tok : String → Nat) (l : List Sent) :
    (takeOverlap tok l).2 ≤ CHUNK_OVERLAP_TOKENS :=
  takeOverlapGo_le tok _ _ _ (Nat.zero_le _)

lemma takeOverlapGo_sum (tok : String → Nat) :
    ∀ (rl acc : List Sent) (t : Nat), t = sumTok tok acc →
      (takeOverlapGo tok rl acc t).2 = sumTok tok (takeOverlapGo tok rl acc t).1
  | [], _, _, ht => ht
  | s :: rest, acc, t, ht => by
    unfold takeOverlapGo
    split_ifs with h
    · refine takeOverlapGo_sum tok rest (s :: acc) _ ?_
      simp [sumTok] at ht ⊢
      omega
    · exact ht

lemma takeOverlap_sum (tok : String → Nat) (l : List Sent) :
    (takeOverlap tok l).2 = sumTok tok (takeOverlap tok l).1 :=
  takeOverlapGo_sum tok _ _ _ (by simp [sumTok])

lemma takeOverlapGo_take (tok : String → Nat) :
    ∀ (rl acc : List Sent) (t : Nat),
      ∃ k, (takeOverlapGo tok rl acc t).1 = (rl.take k).reverse ++ acc
  | [], acc, t => ⟨0, by simp [takeOverlapGo]⟩
  | s :: rest, acc, t => by
    unfold takeOverlapGo
    split_ifs with h
    · obtain ⟨k, hk⟩ := takeOverlapGo_take tok rest (s :: acc) (t + tok s.text)
      exact ⟨k + 1, by simp [hk]⟩
    · exact ⟨0, by simp⟩

lemma takeOverlap_suffix (tok : String → Nat) (l : List Sent) :
    (takeOverlap tok l).1 <:+ l := by
  obtain ⟨k, hk⟩ := takeOverlapGo_take tok l.reverse [] 0
  rw [takeOverlap, hk, List.append_nil]
  refine ⟨(l.reverse.drop k).reverse, ?_⟩
  rw [← List.reverse_append, List.take_append_drop, List.reverse_reverse]

/-- Claim C6 — whenever the chunk builder closes a chunk, the overlap
carry-over seeding the next accumulator has summed token count at most
`CHUNK_OVERLAP_TOKENS` (125), and the carried sentences are a suffix of the
sentences of the just-closed chunk in their original order; the per-sentence
step of `_split_into_chunks` seeds the next accumulator with exactly this
carry-over (followed by the sentence that triggered the split) and resets
the running count to the summed count of the carry-over. -/
theorem overlap_carry_spec (tok : String → Nat) (l : List Sent) :
    (takeOverlap tok l).2 = sumTok tok (takeOverlap tok l).1 ∧
    sumTok tok (takeOverlap tok l).1 ≤ CHUNK_OVERLAP_TOKENS ∧
    (takeOverlap tok l).1 <:+ l ∧
    (∀ (st : BState) (s : Sent),
      CHUNK_MAX_TOKENS < st.currentTokens + tok s.text → st.current ≠ [] →
      (stepSentence tok st s).current = (takeOverlap tok st.current).1 ++ [s] ∧
      (stepSentence tok st s).currentTokens = (takeOverlap tok st.current).2 + tok s.text) := by
  refine ⟨(takeOverlap_sum tok l), ?_, takeOverlap_suffix tok l, ?_⟩
  · rw [← takeOverlap_sum tok l]; exact takeOverlap_le tok l
  · intro st s h1 h2
    rw [stepSentence, if_pos ⟨h1, h2⟩]
    exact ⟨rfl, rfl⟩

/-- Witness for C6 at a concrete closed accumulator and step. -/
theorem overlap_carry_witness :
    (takeOverlap cexTok [⟨"ab", 1⟩]).2 = sumTok cexTok (takeOverlap cexTok [⟨"ab", 1⟩]).1 ∧
    sumTok cexTok (takeOverlap cexTok [⟨"ab", 1⟩]).1 ≤ CHUNK_OVERLAP_TOKENS ∧
    (takeOverlap cexTok [⟨"ab", 1⟩]).1 <:+ [⟨"ab", 1⟩] ∧
    (stepSentence cexTok ⟨[], [⟨"ab", 1⟩], 100, 0⟩ ⟨"aaaaaaaaaaaaaaaaaaaaaaa", 1⟩).current =
      (takeOverlap cexTok [⟨"ab", 1⟩]).1 ++ [⟨"aaaaaaaaaaaaaaaaaaaaaaa", 1⟩] := by
  obtain ⟨ha, hb, hc, hd⟩ := overlap_carry_spec cexTok [⟨"ab", 1⟩]
  exact ⟨ha, hb, hc,
    (hd ⟨[], [⟨"ab", 1⟩], 100, 0⟩ ⟨"aaaaaaaaaaaaaaaaaaaaaaa", 1⟩ (by decide) (by decide)).1⟩

/-! ## Chunk builder: token bound -/

/-- Invariant for the soft token bound: all emitted chunks and the running
accumulator stay within `CHUNK_MAX_TOKENS + CHUNK_OVERLAP_TOKENS`, and an
empty accumulator has a zero running count. -/
def TokInv (st : BState) : Prop :=
  (∀ c ∈ st.chunks, c.content_tokens ≤ CHUNK_MAX_TOKENS + CHUNK_OVERLAP_TOKENS) ∧
  st.currentTokens ≤ CHUNK_MAX_TOKENS + CHUNK_OVERLAP_TOKENS ∧
  (st.current = [] → st.currentTokens = 0)

lemma stepSentence_tokInv (tok : String → Nat) (st : BState) (s : Sent)
    (hs : tok s.text ≤ CHUNK_MAX_TOKENS) (h : TokInv st) :
    TokInv (stepSentence tok st s) := by
  obtain ⟨h1, h2, h3⟩ := h
  rw [stepSentence]
  split_ifs with hcond
  · refine ⟨?_, ?_, ?_⟩
    · intro c hc
      rcases List.mem_append.mp hc with hc | hc
      · exact h1 c hc
      · rcases List.mem_singleton.mp hc with rfl
        exact h2
    · have := takeOverlap_le tok st.current
      dsimp only
      omega
    · intro hnil
      exact absurd hnil (by simp)
  · refine ⟨h1, ?_, ?_⟩
    · dsimp only
      rcases not_and_or.mp hcond with hle | hnil
      · push_neg at hle
        omega
      · push_neg at hnil
        have := h3 hnil
        omega
    · intro hnil
      exact absurd hnil (by simp)

lemma foldl_tokInv (tok : String → Nat) :
    ∀ (l : List Sent) (st : BState),
      (∀ s ∈ l, tok s.text ≤ CHUNK_MAX_TOKENS) → TokInv st →
      TokInv (l.foldl (stepSentence tok) st)
  | [], st, _, h => h
  | s :: rest, st, hl, h => by
    rw [List.foldl_cons]
    exact foldl_tokInv tok rest _ (fun x hx => hl x (List.mem_cons_of_mem s hx))
      (stepSentence_tokInv tok st s (hl s (List.mem_cons_self s rest)) h)

/-- Claim C1 (amended) — for inputs in which no single sentence exceeds
`CHUNK_MAX_TOKENS` (1200), every chunk produced by `_split_into_chunks` has
`content_tokens ≤ CHUNK_MAX_TOKENS + CHUNK_OVERLAP_TOKENS` (1325).  The
bound `CHUNK_MAX_TOKENS` itself does not hold: a chunk seeded from an
overlap carry-over plus one appended sentence is created without a budget
re-check and may reach 1325 (see the counterexample). -/
theorem chunk_token_soft_bound (tok : String → Nat) (sents : List Sent)
    (hs : ∀ s ∈ sents, tok s.text ≤ CHUNK_MAX_TOKENS) :
    ∀ c ∈ split_into_chunks tok sents,
      c.content_tokens ≤ CHUNK_MAX_TOKENS + CHUNK_OVERLAP_TOKENS := by
  have hinv : TokInv (sents.foldl (stepSentence tok) ⟨[], [], 0, 0⟩) :=
    foldl_tokInv tok sents ⟨[], [], 0, 0⟩ hs ⟨by simp, by simp, fun _ => rfl⟩
  intro c hc
  rw [split_into_chunks] at hc
  split_ifs at hc with hemp
  · exact hinv.1 c hc
  · rcases List.mem_append.mp hc with hc | hc
    · exact hinv.1 c hc
    · rcases List.mem_singleton.mp hc with rfl
      exact hinv.2.1

/-- Witness for the amended C1 at the concrete two-sentence input. -/
theorem chunk_token_soft_bound_witness :
    (∀ s ∈ cexSents, cexTok s.text ≤ CHUNK_MAX_TOKENS) ∧
    ∀ c ∈ split_into_chunks cexTok cexSents,
      c.content_tokens ≤ CHUNK_MAX_TOKENS + CHUNK_OVERLAP_TOKENS :=
  ⟨by decide, chunk_token_soft_bound cexTok cexSents (by decide)⟩

/-- Counterexample to C1 as stated: under `cexTok`, the two sentences of
`cexSents` count 100 and 1150 tokens — both at most `CHUNK_MAX_TOKENS`
(1200) — yet `_split_into_chunks` produces a second chunk of 1250 tokens
(overlap carry-over of 100 tokens plus the appended 1150-token sentence),
exceeding `CHUNK_MAX_TOKENS` although no single sentence does. -/
theorem chunk_token_bound_cex :
    cexSents.map (fun s => cexTok s.text) = [100, 1150] ∧
    100 ≤ CHUNK_MAX_TOKENS ∧ 1150 ≤ CHUNK_MAX_TOKENS ∧
    (split_into_chunks cexTok cexSents).map Chunk.content_tokens = [100, 1250] ∧
    CHUNK_MAX_TOKENS < 1250 := by
  refine ⟨by decide, by decide, by decide, ?_, by decide⟩
  decide

/-! ## Chunk builder: coverage and index contiguity -/

lemma stepGroup_cover (tok : String → Nat) (st : GState) (s : Sent) (acc : List Sent)
    (hacc : List.Sublist acc (st.groups.flatten ++ st.current)) :
    List.Sublist (acc ++ [s])
      ((stepGroup tok st s).groups.flatten ++ (stepGroup tok st s).current) := by
  rw [stepGroup]
  split_ifs with h
  · dsimp only
    have h2 := hacc.append (List.sublist_append_right (takeOverlap tok st.current).1 [s])
    simpa [List.flatten_append, List.append_assoc] using h2
  · dsimp only
    rw [← List.append_assoc]
    exact hacc.append (List.Sublist.refl [s])

lemma foldl_cover (tok : String → Nat) :
    ∀ (l : List Sent) (st : GState) (acc : List Sent),
      List.Sublist acc (st.groups.flatten ++ st.current) →
      List.Sublist (acc ++ l)
        ((l.foldl (stepGroup tok) st).groups.flatten ++ (l.foldl (stepGroup tok) st).current)
  | [], _, _, h => by simpa using h
  | s :: rest, st, acc, h => by
    rw [List.foldl_cons, show acc ++ s :: rest = (acc ++ [s]) ++ rest by simp]
    exact foldl_cover tok rest _ (acc ++ [s]) (stepGroup_cover tok st s acc h)

lemma sents_sublist_groups (tok : String → Nat) (sents : List Sent) :
    List.Sublist sents (split_into_groups tok sents).flatten := by
  have h := foldl_cover tok sents ⟨[], [], 0⟩ [] (by simp)
  rw [List.nil_append] at h
  rw [split_into_groups]
  split_ifs with hemp
  · have he : (sents.foldl (stepGroup tok) ⟨[], [], 0⟩).current = [] := by
      simpa using hemp
    rwa [he, List.append_nil] at h
  · simpa [List.flatten_append] using h

/-- The chunk-building and group-building loops walk in lockstep: equal
accumulators and running counts, and the `content` of each emitted chunk is the
rendering of the corresponding sentence group. -/
def ChunkGroupRel (stB : BState) (stG : GState) : Prop :=
  stB.current = stG.current ∧ stB.currentTokens = stG.currentTokens ∧
  stB.chunks.map Chunk.content = stG.groups.map renderSents

lemma stepSentence_rel (tok : String → Nat) (stB : BState) (stG : GState) (s : Sent)
    (h : ChunkGroupRel stB stG) :
    ChunkGroupRel (stepSentence tok stB s) (stepGroup tok stG s) := by
  obtain ⟨h1, h2, h3⟩ := h
  rw [stepSentence, stepGroup, h1, h2]
  split_ifs with hcond
  · exact ⟨by dsimp only, by dsimp only, by simp [mkChunk, h3]⟩
  · exact ⟨by dsimp only, by dsimp only, h3⟩

lemma foldl_rel (tok : String → Nat) :
    ∀ (l : List Sent) (stB : BState) (stG : GState),
      ChunkGroupRel stB stG →
      ChunkGroupRel (l.foldl (stepSentence tok) stB) (l.foldl (stepGroup tok) stG)
  | [], _, _, h => h
  | s :: rest, stB, stG, h => by
    rw [List.foldl_cons, List.foldl_cons]
    exact foldl_rel tok rest _ _ (stepSentence_rel tok stB stG s h)

lemma chunks_groups_content (tok : String → Nat) (sents : List Sent) :
    (split_into_chunks tok sents).map Chunk.content =
      (split_into_groups tok sents).map renderSents := by
  have h := foldl_rel tok sents ⟨[], [], 0, 0⟩ ⟨[], [], 0⟩ ⟨rfl, rfl, rfl⟩
  obtain ⟨h1, _, h3⟩ := h
  rw [split_into_chunks, split_into_groups, h1]
  split_ifs with hemp
  · exact h3
  · simp [mkChunk, h3, h1]

/-- Index contiguity invariant: the next chunk index equals the number of
emitted chunks and the emitted indices are `0, 1, ...`. -/
def IdxInv (st : BState) : Prop :=
  st.chunkIndex = st.chunks.length ∧
  st.chunks.map Chunk.chunk_index = List.range st.chunks.length

lemma stepSentence_idxInv (tok : String → Nat) (st : BState) (s : Sent)
    (h : IdxInv st) : IdxInv (stepSentence tok st s) := by
  obtain ⟨h1, h2⟩ := h
  rw [stepSentence]
  split_ifs with hcond
  · constructor
    · dsimp only
      rw [h1, List.length_append]
      rfl
    · dsimp only
      rw [List.map_append, h2, List.length_append]
      simp [mkChunk, h1, List.range_succ]
  · exact ⟨h1, h2⟩

lemma foldl_idxInv (tok : String → Nat) :
    ∀ (l : List Sent) (st : BState), IdxInv st →
      IdxInv (l.foldl (stepSentence tok) st)
  | [], _, h => h
  | s :: rest, st, h => by
    rw [List.foldl_cons]
    exact foldl_idxInv tok rest _ (stepSentence_idxInv tok st s h)

lemma chunk_indices_range (tok : String → Nat) (sents : List Sent) :
    (split_into_chunks tok sents).map Chunk.chunk_index =
      List.range (split_into_chunks tok sents).length := by
  obtain ⟨h1, h2⟩ := foldl_idxInv tok sents ⟨[], [], 0, 0⟩ ⟨rfl, rfl⟩
  rw [split_into_chunks]
  split_ifs with hemp
  · exact h2
  · rw [List.map_append, h2, List.length_append]
    simp [mkChunk, h1, List.range_succ]

/-- Claim C7 — no sentence is dropped: the original sentence sequence is a
subsequence of the concatenation of the produced sentence groups (so every
sentence occurs in some chunk, in original order, up to the overlap
duplication at chunk starts); the `content` of each chunk is exactly the
space-joined rendering of its sentence group; and the chunk indices form
the contiguous sequence `0, 1, 2, ...`. -/
theorem chunk_coverage_and_contiguity (tok : String → Nat) (sents : List Sent) :
    List.Sublist sents (split_into_groups tok sents).flatten ∧
    (split_into_chunks tok sents).map Chunk.content =
      (split_into_groups tok sents).map renderSents ∧
    (split_into_chunks tok sents).map Chunk.chunk_index =
      List.range (split_into_chunks tok sents).length :=
  ⟨sents_sublist_groups tok sents, chunks_groups_content tok sents,
    chunk_indices_range tok sents⟩

/-- Witness for C7 at the concrete two-sentence input. -/
theorem chunk_coverage_witness :
    List.Sublist cexSents (split_into_groups cexTok cexSents).flatten ∧
    (split_into_chunks cexTok cexSents).map Chunk.chunk_index =
      List.range (split_into_chunks cexTok cexSents).length :=
  ⟨(chunk_coverage_and_contiguity cexTok cexSents).1,
    (chunk_coverage_and_contiguity cexTok cexSents).2.2⟩

/-! ## Confidence classifier -/

/-- Claim C4 — `_determine_confidence` classifies by the arithmetic mean of
the reranked scores: semantic/"openai" mode uses thresholds 0.75/0.50,
lexical/"fulltext" mode uses 0.10/0.01, and the empty list is "low". -/
theorem determine_confidence_spec :
    (∀ provider : String, determine_confidence provider [] = "low") ∧
    (∀ chunks : List Cand, chunks ≠ [] →
      (determine_confidence "openai" chunks = "high" ↔ 3/4 ≤ avgScore chunks) ∧
      (determine_confidence "openai" chunks = "medium" ↔
        1/2 ≤ avgScore chunks ∧ avgScore chunks < 3/4) ∧
      (determine_confidence "openai" chunks = "low" ↔ avgScore chunks < 1/2) ∧
      (determine_confidence "fulltext" chunks = "high" ↔ 1/10 ≤ avgScore chunks) ∧
      (determine_confidence "fulltext" chunks = "medium" ↔
        1/100 ≤ avgScore chunks ∧ avgScore chunks < 1/10) ∧
      (determine_confidence "fulltext" chunks = "low" ↔ avgScore chunks < 1/100)) := by
  constructor
  · intro provider
    rfl
  · intro chunks hne
    have hie : ¬ chunks.isEmpty = true := by simpa [List.isEmpty_iff] using hne
    rw [determine_confidence, if_neg hie, if_neg (by decide : ¬ ("openai" : String) = "fulltext")]
    rw [determine_confidence, if_neg hie, if_pos rfl]
    by_cases ho1 : (3/4 : ℚ) ≤ avgScore chunks
    · rw [if_pos ho1, if_pos (by linarith : (1/10 : ℚ) ≤ avgScore chunks)]
      exact ⟨iff_of_true rfl ho1,
        iff_of_false (by decide) (by intro h; linarith [h.2]),
        iff_of_false (by decide) (by intro h; linarith),
        iff_of_true rfl (by linarith),
        iff_of_false (by decide) (by intro h; linarith [h.2]),
        iff_of_false (by decide) (by intro h; linarith)⟩
    · rw [if_neg ho1]
      push_neg at ho1
      by_cases ho2 : (1/2 : ℚ) ≤ avgScore chunks
      · rw [if_pos ho2, if_pos (by linarith : (1/10 : ℚ) ≤ avgScore chunks)]
        exact ⟨iff_of_false (by decide) (by intro h; linarith),
          iff_of_true rfl ⟨ho2, ho1⟩,
          iff_of_false (by decide) (by intro h; linarith),
          iff_of_true rfl (by linarith),
          iff_of_false (by decide) (by intro h; linarith [h.2]),
          iff_of_false (by decide) (by intro h; linarith)⟩
      · rw [if_neg ho2]
        push_neg at ho2
        by_cases hf1 : (1/10 : ℚ) ≤ avgScore chunks
        · rw [if_pos hf1]
          exact ⟨iff_of_false (by decide) (by intro h; linarith),
            iff_of_false (by decide) (by intro h; linarith [h.1]),
            iff_of_true rfl (by linarith),
            iff_of_true rfl hf1,
            iff_of_false (by decide) (by intro h; linarith [h.2]),
            iff_of_false (by decide) (by intro h; linarith)⟩
        · rw [if_neg hf1]
          push_neg at hf1
          by_cases hf2 : (1/100 : ℚ) ≤ avgScore chunks
          · rw [if_pos hf2]
            exact ⟨iff_of_false (by decide) (by intro h; linarith),
              iff_of_false (by decide) (by intro h; linarith [h.1]),
              iff_of_true rfl (by linarith),
              iff_of_false (by decide) (by intro h; linarith),
              iff_of_true rfl ⟨hf2, hf1⟩,
              iff_of_false (by decide) (by intro h; linarith)⟩
          · rw [if_neg hf2]
            push_neg at hf2
            exact ⟨iff_of_false (by decide) (by intro h; linarith),
              iff_of_false (by decide) (by intro h; linarith [h.1]),
              iff_of_true rfl (by linarith),
              iff_of_false (by decide) (by intro h; linarith),
              iff_of_false (by decide) (by intro h; linarith [h.1]),
              iff_of_true rfl (by linarith)⟩

/-- Witness for C4: the scenario given in the spec, scores 0.9, 0.8, 0.7 with mean
0.8 classify as "high" in semantic mode. -/
theorem determine_confidence_witness :
    determine_confidence "openai" wHigh = "high" :=
  ((determine_confidence_spec.2 wHigh (by decide)).1).mpr (by
    norm_num [avgScore, wHigh, wCand, scoreD])

/-! ## Weak-match gate -/

lemma le_foldl_max (b : ℚ) :
    ∀ (cs : List Cand), b ≤ cs.foldl (fun m d => max m (scoreD d)) b := by
  intro cs
  induction cs generalizing b with
  | nil => exact le_refl b
  | cons c rest ih =>
    rw [List.foldl_cons]
    exact le_trans (le_max_left b (scoreD c)) (ih (max b (scoreD c)))

lemma mem_le_foldl_max (d : Cand) :
    ∀ (cs : List Cand) (b : ℚ), d ∈ cs →
      scoreD d ≤ cs.foldl (fun m d => max m (scoreD d)) b := by
  intro cs
  induction cs with
  | nil => intro b h; cases h
  | cons c rest ih =>
    intro b h
    rw [List.foldl_cons]
    rcases List.mem_cons.mp h with rfl | h
    · exact le_trans (le_max_right b (scoreD d)) (le_foldl_max _ rest)
    · exact ih _ h

lemma mem_le_maxScore {l : List Cand} {c : Cand} (h : c ∈ l) :
    scoreD c ≤ maxScore l := by
  cases l with
  | nil => cases h
  | cons a as =>
    rw [maxScore]
    rcases List.mem_cons.mp h with rfl | h
    · exact le_foldl_max _ as
    · exact mem_le_foldl_max c as _ h

lemma avgScore_le_maxScore (l : List Cand) (h : l ≠ []) :
    avgScore l ≤ maxScore l := by
  have hlen : 0 < (l.length : ℚ) := by
    have := List.length_pos.mpr h
    exact_mod_cast this
  rw [avgScore, div_le_iff₀ hlen]
  have hb : ∀ x ∈ l.map scoreD, x ≤ maxScore l := by
    intro x hx
    obtain ⟨c, hc, rfl⟩ := List.mem_map.mp hx
    exact mem_le_maxScore hc
  calc (l.map scoreD).sum ≤ (l.map scoreD).length • maxScore l :=
        List.sum_le_card_nsmul _ _ hb
    _ = maxScore l * (l.length : ℚ) := by
        rw [List.length_map, nsmul_eq_mul, mul_comm]

/-- If the semantic-mode confidence is not "low" then the mean, and hence
the maximum, of the reranked scores is at least 1/2. -/
lemma confidence_not_low_max (reranked : List Cand) (hne : reranked ≠ [])
    (h : determine_confidence "openai" reranked ≠ "low") :
    WEAK_MATCH_SCORE_THRESHOLD ≤ maxScore reranked := by
  have hie : ¬ reranked.isEmpty = true := by simpa [List.isEmpty_iff] using hne
  rw [determine_confidence, if_neg hie,
    if_neg (by decide : ¬ ("openai" : String) = "fulltext")] at h
  have havg : (1/2 : ℚ) ≤ avgScore reranked := by
    by_cases h1 : (3/4 : ℚ) ≤ avgScore reranked
    · linarith
    · rw [if_neg h1] at h
      by_cases h2 : (1/2 : ℚ) ≤ avgScore reranked
      · exact h2
      · rw [if_neg h2] at h
        exact absurd rfl h
  calc WEAK_MATCH_SCORE_THRESHOLD = 1/2 := rfl
    _ ≤ avgScore reranked := havg
    _ ≤ maxScore reranked := avgScore_le_maxScore reranked hne

/-- Claim C10 — when `_is_weak_match` is fed the confidence computed by
`_determine_confidence` from the same reranked list (as `process_query`
does), it is equivalent to "the reranked list is empty or confidence is
low", for every provider mode: in semantic/"openai" mode a non-"low"
confidence forces mean ≥ 0.50, hence max ≥ 0.50, so the max-score floor
branch never fires. -/
theorem weak_match_iff_low_or_empty (provider : String) (reranked : List Cand) :
    is_weak_match provider reranked (determine_confidence provider reranked) = true ↔
      (reranked = [] ∨ determine_confidence provider reranked = "low") := by
  constructor
  · intro h
    by_cases hc : determine_confidence provider reranked = "low"
    · exact Or.inr hc
    · by_cases he : reranked = []
      · exact Or.inl he
      · exfalso
        have hie : ¬ reranked.isEmpty = true := by simpa [List.isEmpty_iff] using he
        rw [is_weak_match, if_neg hc, if_neg hie] at h
        by_cases hp : provider = "openai"
        · rw [if_pos hp] at h
          subst hp
          have hmax := confidence_not_low_max reranked he hc
          rw [if_neg (not_lt.mpr hmax)] at h
          exact Bool.false_ne_true h
        · rw [if_neg hp] at h
          exact Bool.false_ne_true h
  · rintro (rfl | hlow)
    · have : determine_confidence provider [] = "low" := rfl
      rw [is_weak_match, this, if_pos rfl]
    · rw [is_weak_match, hlow, if_pos rfl]

/-- Witness for C10 at the concrete empty reranked list. -/
theorem weak_match_witness :
    is_weak_match "openai" [] (determine_confidence "openai" []) = true :=
  (weak_match_iff_low_or_empty "openai" []).mpr (Or.inl rfl)

/-! ## Query pipeline: ungroundable short-circuit -/

lemma is_weak_match_iff (provider : String) (reranked : List Cand) (conf : String) :
    is_weak_match provider reranked conf = true ↔
      (conf = "low" ∨ reranked = [] ∨
        (provider = "openai" ∧ maxScore reranked < WEAK_MATCH_SCORE_THRESHOLD)) := by
  rw [is_weak_match]
  split_ifs with h1 h2 h3 h4
  · exact iff_of_true rfl (Or.inl h1)
  · exact iff_of_true rfl (Or.inr (Or.inl (List.isEmpty_iff.mp h2)))
  · exact iff_of_true rfl (Or.inr (Or.inr ⟨h3, h4⟩))
  · refine iff_of_false not_false ?_
    rintro (hc | he | ⟨_, hm⟩)
    · exact h1 hc
    · exact h2 (List.isEmpty_iff.mpr he)
    · exact h4 hm
  · refine iff_of_false not_false ?_
    rintro (hc | he | ⟨hp, _⟩)
    · exact h1 hc
    · exact h2 (List.isEmpty_iff.mpr he)
    · exact h3 hp

lemma gate_iff (provider : String) (cands : List Cand) :
    ((rerank cands).isEmpty || is_weak_match provider (rerank cands)
        (determine_confidence provider (rerank cands))) = true ↔
      (rerank cands = [] ∨ determine_confidence provider (rerank cands) = "low" ∨
        (provider = "openai" ∧
          maxScore (rerank cands) < WEAK_MATCH_SCORE_THRESHOLD)) := by
  rw [Bool.or_eq_true, is_weak_match_iff, List.isEmpty_iff]
  tauto

lemma process_query_gate_result (provider question mode : String)
    (gen : String → String → String) (cands : List Cand)
    (hg : rerank cands = [] ∨ determine_confidence provider (rerank cands) = "low" ∨
      (provider = "openai" ∧ maxScore (rerank cands) < WEAK_MATCH_SCORE_THRESHOLD)) :
    process_query provider gen question mode cands =
      { answer := NO_ANSWER, citations := [], retrieved_chunks := [],
        confidence := determine_confidence provider (rerank cands) } := by
  have hb := (gate_iff provider cands).mpr hg
  simp only [process_query]
  rw [if_pos hb]

lemma process_query_open_result (provider question mode : String)
    (gen : String → String → String) (cands : List Cand)
    (hg : ¬ (rerank cands = [] ∨ determine_confidence provider (rerank cands) = "low" ∨
      (provider = "openai" ∧ maxScore (rerank cands) < WEAK_MATCH_SCORE_THRESHOLD))) :
    process_query provider gen question mode cands =
      { answer := gen (systemPrompt (modeInstruction mode) (build_context (rerank cands))) question
        citations := (rerank cands).map mkCitation
        retrieved_chunks := (rerank cands).enum.map (fun p => mkRetrieved (p.1 + 1) p.2)
        confidence := determine_confidence provider (rerank cands) } := by
  have hb : ¬ ((rerank cands).isEmpty || is_weak_match provider (rerank cands)
      (determine_confidence provider (rerank cands))) = true :=
    fun h => hg ((gate_iff provider cands).mp h)
  simp only [process_query]
  rw [if_neg hb]

/-- Claim C2 — `process_query` returns the sentinel answer with empty
citation and retrieved-chunk lists exactly when the reranked set is empty,
or confidence is "low", or (semantic/"openai" mode only) the maximum
reranked score is below the weak-match floor 0.50 — in lexical/"fulltext"
mode the floor check is skipped; and in that ungroundable case the result
does not depend on the generation collaborator `gen` at all (no
`chat_completion` call, no context building). -/
theorem process_query_ungroundable (provider question mode : String)
    (gen gen' : String → String → String) (cands : List Cand) :
    (((process_query provider gen question mode cands).answer = NO_ANSWER ∧
      (process_query provider gen question mode cands).citations = [] ∧
      (process_query provider gen question mode cands).retrieved_chunks = []) ↔
      (rerank cands = [] ∨ determine_confidence provider (rerank cands) = "low" ∨
        (provider = "openai" ∧
          maxScore (rerank cands) < WEAK_MATCH_SCORE_THRESHOLD))) ∧
    ((rerank cands = [] ∨ determine_confidence provider (rerank cands) = "low" ∨
        (provider = "openai" ∧
          maxScore (rerank cands) < WEAK_MATCH_SCORE_THRESHOLD)) →
      process_query provider gen question mode cands =
        process_query provider gen' question mode cands) := by
  by_cases hg : rerank cands = [] ∨ determine_confidence provider (rerank cands) = "low" ∨
      (provider = "openai" ∧ maxScore (rerank cands) < WEAK_MATCH_SCORE_THRESHOLD)
  · have h1 := process_query_gate_result provider question mode gen cands hg
    have h2 := process_query_gate_result provider question mode gen' cands hg
    constructor
    · refine iff_of_true ?_ hg
      rw [h1]
      exact ⟨rfl, rfl, rfl⟩
    · intro _
      rw [h1, h2]
  · have hne : rerank cands ≠ [] := fun h => hg (Or.inl h)
    have h1 := process_query_open_result provider question mode gen cands hg
    constructor
    · refine iff_of_false ?_ hg
      rintro ⟨_, hc, _⟩
      rw [h1] at hc
      exact hne (List.map_eq_nil_iff.mp hc)
    · intro h
      exact absurd h hg

/-- Witness for C2: with no candidates at all, the pipeline returns the
sentinel with empty lists. -/
theorem process_query_witness :
    (process_query "fulltext" (fun _ _ => "svar") "fråga" "technical" []).answer = NO_ANSWER ∧
    (process_query "fulltext" (fun _ _ => "svar") "fråga" "technical" []).citations = [] ∧
    (process_query "fulltext" (fun _ _ => "svar") "fråga" "technical" []).retrieved_chunks = [] :=
  (process_query_ungroundable "fulltext" "fråga" "technical"
    (fun _ _ => "svar") (fun _ _ => "svar") []).1.mpr (Or.inl (by simp [rerank]))

/-! ## Reranker -/

lemma rerank_le_trans : ∀ (a b c : Cand),
    decide (scoreD b ≤ scoreD a) = true → decide (scoreD c ≤ scoreD b) = true →
    decide (scoreD c ≤ scoreD a) = true := by
  intro a b c hab hbc
  simp only [decide_eq_true_eq] at *
  exact le_trans hbc hab

lemma rerank_le_total : ∀ (a b : Cand),
    (decide (scoreD b ≤ scoreD a) || decide (scoreD a ≤ scoreD b)) = true := by
  intro a b
  simp [le_total]

/-- Claim C5 — `_rerank` returns a length-≤-6 initial segment of a stable
score-descending reordering of its input: some list `s`, a permutation of
the input, is sorted by score descending, preserves the input order of any
equal-score pair, and `rerank` is exactly its first `RERANK_FINAL_K = 6`
elements; every kept candidate scores at least as high as every dropped
one.  (The Lean embedding is a pure function, so freedom from side effects
on the input is inherent.) -/
theorem rerank_spec (cands : List Cand) :
    ∃ s : List Cand,
      s.Perm cands ∧
      s.Pairwise (fun a b => scoreD b ≤ scoreD a) ∧
      (∀ a b : Cand, scoreD a = scoreD b → List.Sublist [a, b] cands →
        List.Sublist [a, b] s) ∧
      rerank cands = s.take RERANK_FINAL_K ∧
      (rerank cands).length ≤ RERANK_FINAL_K ∧
      (∀ c ∈ rerank cands, ∀ d ∈ s.drop RERANK_FINAL_K, scoreD d ≤ scoreD c) := by
  have hsorted : (cands.mergeSort (fun a b => decide (scoreD b ≤ scoreD a))).Pairwise
      (fun a b => scoreD b ≤ scoreD a) := by
    have h := List.sorted_mergeSort rerank_le_trans rerank_le_total cands
    exact h.imp (fun hab => by simpa using hab)
  refine ⟨cands.mergeSort (fun a b => decide (scoreD b ≤ scoreD a)),
    List.mergeSort_perm cands _, hsorted, ?_, rfl, ?_, ?_⟩
  · intro a b hs hsub
    exact List.pair_sublist_mergeSort rerank_le_trans rerank_le_total
      (by simp [hs]) hsub
  · rw [rerank, List.length_take]
    exact min_le_left _ _
  · intro c hc d hd
    have hp := hsorted
    rw [← List.take_append_drop RERANK_FINAL_K
      (cands.mergeSort (fun a b => decide (scoreD b ≤ scoreD a)))] at hp
    rw [rerank] at hc
    exact (List.pairwise_append.mp hp).2.2 c hc d hd

/-- Witness for C5 at a concrete four-candidate list with a tied pair. -/
theorem rerank_spec_witness :
    (rerank [wCand "a" (1/2), wCand "b" (3/4), wCand "c" (1/2), wCand "d" 1]).length ≤
      RERANK_FINAL_K := by
  obtain ⟨s, _, _, _, _, h5, _⟩ :=
    rerank_spec [wCand "a" (1/2), wCand "b" (3/4), wCand "c" (1/2), wCand "d" 1]
  exact h5

/-! ## Context assembler: page references -/

/-- Claim C9 — in the context string built by `_build_context`, blocks
appear in rank order with 1-based labels joined by the distinct delimiter,
and the page reference of each block renders as ", sida X" when
`page_start = page_end` or `page_end` is absent, as ", sida X-Y" when the
two (1-based, hence nonzero) pages differ, and is omitted entirely when
`page_start` is unknown. -/
theorem build_context_spec :
    (∀ chunks : List Cand, build_context chunks = String.intercalate "\n\n---\n\n"
        (chunks.enum.map (fun p => contextBlock (p.1 + 1) p.2))) ∧
    (∀ c : Cand, c.page_start = none → pageInfo c = "") ∧
    (∀ (c : Cand) (p : Nat), c.page_start = some p → p ≠ 0 →
      (c.page_end = some p ∨ c.page_end = none) →
      pageInfo c = ", sida " ++ toString p) ∧
    (∀ (c : Cand) (p q : Nat), c.page_start = some p → p ≠ 0 →
      c.page_end = some q → q ≠ 0 → q ≠ p →
      pageInfo c = ", sida " ++ toString p ++ "-" ++ toString q) := by
  refine ⟨fun chunks => rfl, ?_, ?_, ?_⟩
  · intro c h
    simp [pageInfo, h]
  · intro c p hp hp0 hpe
    rcases hpe with he | he <;> simp [pageInfo, hp, he, hp0]
  · intro c p q hp hp0 he hq0 hqp
    simp [pageInfo, hp, he, hp0, hq0, hqp]

/-- Witness for C9: the page-formatting scenario of the spec, pages (3,3) and
(3,5). -/
theorem build_context_witness :
    pageInfo wPage33 = ", sida " ++ toString 3 ∧
    pageInfo wPage35 = ", sida " ++ toString 3 ++ "-" ++ toString 5 :=
  ⟨build_context_spec.2.2.1 wPage33 3 rfl (by decide) (Or.inl rfl),
   build_context_spec.2.2.2 wPage35 3 5 rfl (by decide) rfl (by decide) (by decide)⟩

/-! ## Embedding cache gateway -/

lemma cacheLookup_append_self (cache : List CacheRow) (hash : String)
    (row : CacheRow) (hmiss : cacheLookup cache hash = none)
    (hrow : row.content_hash = hash) :
    cacheLookup (cache ++ [row]) hash = some row := by
  rw [cacheLookup] at hmiss ⊢
  rw [List.find?_append, hmiss]
  simp [List.find?, hrow]

/-- Claim C8 — `_get_or_create_embedding`: returns `none` whenever the
configured provider is not "openai"; in "openai" mode a cache hit on
`content_hash` returns the stored vector with no embedding request and no
cache change; a miss embeds exactly the given content, appends the row
`{content_hash, vector, token_count, model_version}`, and returns the
vector; and a second call with the same content hash then returns the same
vector with zero further embedding requests. -/
theorem get_or_create_embedding_spec (env : EmbedEnv) (cache : List CacheRow)
    (content hash : String) :
    (env.provider ≠ "openai" →
      get_or_create_embedding env cache content hash = .ok ⟨none, cache, 0⟩) ∧
    (∀ row : CacheRow, env.provider = "openai" → cacheLookup cache hash = some row →
      get_or_create_embedding env cache content hash = .ok ⟨some row.embedding, cache, 0⟩) ∧
    (env.provider = "openai" → cacheLookup cache hash = none → env.insertOk = true →
      get_or_create_embedding env cache content hash =
        .ok ⟨some (env.embed content),
          cache ++ [⟨hash, env.embed content, env.tokCount content, env.modelName⟩], 1⟩) ∧
    (env.provider = "openai" → env.insertOk = true →
      ∀ out : EmbedOut, get_or_create_embedding env cache content hash = .ok out →
        ∀ content2 : String,
          get_or_create_embedding env out.cache content2 hash =
            .ok ⟨out.result, out.cache, 0⟩) := by
  refine ⟨?_, ?_, ?_, ?_⟩
  · intro h
    rw [get_or_create_embedding, if_pos h]
  · intro row hp hrow
    rw [get_or_create_embedding, if_neg (not_not_intro hp), hrow]
  · intro hp hmiss hin
    rw [get_or_create_embedding, if_neg (not_not_intro hp), hmiss]
    dsimp only
    rw [if_pos hin]
  · intro hp hin out hout content2
    rw [get_or_create_embedding, if_neg (not_not_intro hp)] at hout
    cases hrow : cacheLookup cache hash with
    | some row =>
      rw [hrow] at hout
      dsimp only at hout
      injection hout with hout
      subst hout
      rw [get_or_create_embedding, if_neg (not_not_intro hp)]
      dsimp only
      rw [hrow]
    | none =>
      rw [hrow] at hout
      dsimp only at hout
      rw [if_pos hin] at hout
      injection hout with hout
      subst hout
      rw [get_or_create_embedding, if_neg (not_not_intro hp)]
      dsimp only
      rw [cacheLookup_append_self cache hash _ hrow rfl]

/-- Witness for C8: in the all-success environment a miss populates the
cache and a repeat call hits it. -/
theorem get_or_create_embedding_witness :
    get_or_create_embedding okEnv [] "hej" "h1" =
      .ok ⟨some [1], [⟨"h1", [1], 3, "text-embedding-3-small"⟩], 1⟩ ∧
    get_or_create_embedding okEnv [⟨"h1", [1], 3, "text-embedding-3-small"⟩] "hej" "h1" =
      .ok ⟨some [1], [⟨"h1", [1], 3, "text-embedding-3-small"⟩], 0⟩ :=
  ⟨(get_or_create_embedding_spec okEnv [] "hej" "h1").2.2.1 rfl rfl rfl,
   (get_or_create_embedding_spec okEnv [⟨"h1", [1], 3, "text-embedding-3-small"⟩]
      "hej" "h1").2.1 ⟨"h1", [1], 3, "text-embedding-3-small"⟩ rfl rfl⟩

/-! ## Ingestion: cache-store failure -/

/-- Counterexample to C3 as stated: with a failing cache-insert
collaborator (`failEnv`), ingesting one chunk whose hash is not cached
raises out of `_get_or_create_embedding` — the source has no `try`/`except`
around the insert (ingestion.py lines 168-173), nor around the
`_get_or_create_embedding` call in `ingest_document` (line 207) — so
ingestion fails instead of storing the chunk without an embedding. -/
theorem ingest_cache_store_failure_cex :
    ingest_document_rows failEnv (fun s => s) "doc-1" [cexChunk] [] =
      Except.error "embeddings_cache insert failed" := rfl

/-- Claim C3 (amended) — a failure to persist a newly computed embedding
propagates out of the ingestion pipeline: in semantic mode, if the hash of the first
chunk misses the cache and the cache insert fails, ingestion of the
document returns the error and stores no rows at all (the batched
`knowledge_chunks` insert is never reached). -/
theorem ingest_cache_store_failure_propagates (env : EmbedEnv)
    (hashFn : String → String) (docId : String) (c : Chunk) (rest : List Chunk)
    (cache : List CacheRow) (hp : env.provider = "openai") (hi : env.insertOk = false)
    (hm : cacheLookup cache (hashFn c.content) = none) :
    ingest_document_rows env hashFn docId (c :: rest) cache =
      Except.error "embeddings_cache insert failed" := by
  rw [ingest_document_rows]
  rw [get_or_create_embedding, if_neg (not_not_intro hp), hm]
  dsimp only
  rw [if_neg (by simp [hi])]

/-- Witness for the amended C3 at a concrete two-chunk input with a
non-empty, non-matching cache. -/
theorem ingest_cache_store_failure_witness :
    ingest_document_rows failEnv (fun s => s) "doc-2" [cexChunk, cexChunk2]
      [⟨"annan", [2], 5, "text-embedding-3-small"⟩] =
      Except.error "embeddings_cache insert failed" :=
  ingest_cache_store_failure_propagates failEnv (fun s => s) "doc-2" cexChunk
    [cexChunk2] [⟨"annan", [2], 5, "text-embedding-3-small"⟩] rfl rfl (by
      simp [cacheLookup, List.find?, cexChunk])
